import Mathlib

/-!
Verification of the indefinite-observable library (dist/indefinite-observable.js
plus the bundled copy shipped alongside it).

The development shallowly embeds the two classes of the library:

* `IndefiniteSubject` becomes `SubjectState`: the mutable fields `_observers`
  (a JS `Set`, modelled as an insertion-ordered duplicate-free list of observer
  identities), `_hasStarted` and `_lastValue`, plus a delivery log recording
  every argument passed to an observer's `next`.
* Observer callbacks are modelled by an environment `ObsId → ObsBehavior`
  assigning each observer identity the effect of its `next` method: purely
  record the value, throw, re-entrantly subscribe a fresh recording observer,
  or re-entrantly unsubscribe some observer.
* `this._observers.forEach(cb)` is modelled by `runForEach`, which follows the
  live-iteration semantics of `Set.prototype.forEach`: at every step the first
  element of the current membership list that has not yet been visited in this
  pass is visited, so elements added during the pass are visited and elements
  removed before their turn are skipped.  Since observer callbacks may keep
  enlarging the set, the JS loop can genuinely diverge; the model therefore
  takes a fuel argument and returns `none` when the fuel runs out.
* `IndefiniteObservable` becomes `IndefiniteObservable`/`obsSubscribe` over an
  abstract world state `σ`; a connect function is a state transformer returning
  the new world and a disconnect state transformer.  The subscription returned
  by `subscribe` carries the `closed` flag of the source.
* The bundled copy of the library (`part_000`) ships an older build whose
  `subscribe` returns the creator's disconnect function directly, with no
  `closed` flag; it is embedded separately as `part000Subscribe`.
-/

namespace IndefObs

/-- Identity of a (normalized) observer object stored in the Subject's
`_observers` set.  JS `Set` membership is object identity, so observer
objects are represented by their identities. -/
abbrev ObsId := Nat

/-- The effect of one observer's `next` callback, used as the environment of a
delivery pass: `recorder` only records the received value; `thrower` throws;
`adder b` re-entrantly calls `subscribe` on the same subject with a fresh
observer (identity `b`) whose own callback merely records; `remover t`
re-entrantly calls the `unsubscribe` of observer `t`'s subscription. -/
inductive ObsBehavior (T : Type) where
  | recorder
  | thrower
  | adder (fresh : ObsId)
  | remover (target : ObsId)
deriving DecidableEq

/-- State of an `IndefiniteSubject`: `observers` models the `_observers` Set
(insertion order, no duplicates), `hasStarted` models `_hasStarted`,
`lastValue` models `_lastValue` (`none` plays the role of the initial
`undefined`), and `log` records each delivery `observer.next(arg)` in order
(the argument is an `Option T` because `_lastValue` starts out undefined). -/
structure SubjectState (T : Type) where
  observers : List ObsId
  hasStarted : Bool
  lastValue : Option T
  log : List (ObsId × Option T)
deriving DecidableEq

/-- The `IndefiniteSubject` constructor: `this._observers = new Set();
this._hasStarted = false;` (`_lastValue` left undefined, log empty). -/
def mkSubject {T : Type} : SubjectState T :=
  ⟨[], false, none, []⟩

/-- JS `Set.prototype.add`: appends the element unless already present. -/
def setAdd (l : List ObsId) (o : ObsId) : List ObsId :=
  if o ∈ l then l else l ++ [o]

/-- One invocation `observer.next(arg)` of observer `o`, according to its
behavior in `env`.  Returns the new subject state and whether the callback
threw.  An `adder b` callback runs `subject.subscribe(recorder b)`
re-entrantly, which adds `b` to the set and, because `_hasStarted` holds
mid-pass, immediately replays `_lastValue` to `b`.  A `remover t` callback
runs the unsubscribe closure `this._observers.delete(t)`. -/
def callNext {T : Type} (env : ObsId → ObsBehavior T) (o : ObsId) (arg : Option T)
    (s : SubjectState T) : SubjectState T × Bool :=
  match env o with
  | .recorder => ({s with log := s.log ++ [(o, arg)]}, false)
  | .thrower => (s, true)
  | .adder b =>
      let s1 := {s with observers := setAdd s.observers b}
      if s1.hasStarted then ({s1 with log := s1.log ++ [(b, s1.lastValue)]}, false)
      else (s1, false)
  | .remover t => ({s with observers := s.observers.erase t}, false)

/-- Test that an observer has not yet been visited in the current `forEach`
pass. -/
def unvisited (visited : List ObsId) (o : ObsId) : Bool :=
  decide (o ∉ visited)

/-- The first member of the current set not yet visited in this `forEach`
pass — the element the live `Set.prototype.forEach` cursor visits next. -/
def firstUnvisited (obs visited : List ObsId) : Option ObsId :=
  obs.find? (unvisited visited)

/-- `this._observers.forEach((observer) => observer.next(value))` with the
live-iteration semantics of a JS `Set`: repeatedly visit the first
not-yet-visited member of the *current* set, so re-entrant additions are
visited in the same pass and re-entrant removals of not-yet-visited members
skip them.  A throwing callback aborts the pass and propagates (second
component `true`).  `fuel` bounds the number of steps; `none` models the
divergence that observer callbacks enlarging the set forever would cause. -/
def runForEach {T : Type} (env : ObsId → ObsBehavior T) (value : T) :
    Nat → List ObsId → SubjectState T → Option (SubjectState T × Bool)
  | 0, _, _ => none
  | fuel + 1, visited, s =>
      match firstUnvisited s.observers visited with
      | none => some (s, false)
      | some o =>
          match callNext env o (some value) s with
          | (s1, true) => some (s1, true)
          | (s1, false) => runForEach env value fuel (visited ++ [o]) s1

/-- `IndefiniteSubject.next(value)`: sets `_hasStarted`, caches `_lastValue`,
then forwards `value` to every currently-subscribed observer via `forEach`. -/
def subjectNext {T : Type} (env : ObsId → ObsBehavior T) (fuel : Nat) (value : T)
    (s : SubjectState T) : Option (SubjectState T × Bool) :=
  runForEach env value fuel []
    {s with hasStarted := true, lastValue := some value}

/-- `IndefiniteSubject.subscribe(observerOrNext)`: adds the normalized
observer to `_observers`, then, if `_hasStarted`, immediately replays
`_lastValue` by calling the new observer's `next`.  The Boolean reports
whether that replay threw. -/
def subjectSubscribe {T : Type} (env : ObsId → ObsBehavior T) (o : ObsId)
    (s : SubjectState T) : SubjectState T × Bool :=
  let s1 := {s with observers := setAdd s.observers o}
  if s1.hasStarted then callNext env o s1.lastValue s1 else (s1, false)

/-- The `unsubscribe` closure returned by `IndefiniteSubject.subscribe`:
`this._observers.delete(observer)`. -/
def subjectUnsubscribe {T : Type} (o : ObsId) (s : SubjectState T) : SubjectState T :=
  {s with observers := s.observers.erase o}

/-- Driver running `subject.next` once per value of a list, in order, with
enough fuel for a pass over a set that is not enlarged re-entrantly; stops
early if a pass throws or runs out of fuel. -/
def emits {T : Type} (env : ObsId → ObsBehavior T) :
    List T → SubjectState T → Option (SubjectState T × Bool)
  | [], s => some (s, false)
  | v :: vs, s =>
      match subjectNext env (s.observers.length + 1) v s with
      | some (s1, false) => emits env vs s1
      | some (s1, true) => some (s1, true)
      | none => none

/-- A normalized observer over value type `T` and world state `σ`: the object
shape `{ next }` produced by the adapter, with `next` an effectful callback. -/
structure NObserver (T σ : Type) where
  next : T → σ → σ

/-- Argument accepted by `subscribe`: either a bare unary function or an
object already exposing a `next` method. -/
inductive Listener (T σ : Type) where
  | fn (f : T → σ → σ)
  | obs (o : NObserver T σ)

/-- The adapter of dist/indefinite-observable.js: `typeof listener ===
'function'` wraps the function as `{ next: listener }`, anything else is
returned unchanged. -/
def wrapWithObserver {T σ : Type} : Listener T σ → NObserver T σ
  | .fn f => ⟨f⟩
  | .obs o => o

/-- `IndefiniteObservable`: the constructor merely stores the connect
function (`this._connect = connect`), invoking nothing.  A connect function
takes the normalized observer and the current world, and returns the new
world together with a disconnect state transformer. -/
structure IndefiniteObservable (T σ : Type) where
  connectFn : NObserver T σ → σ → σ × (σ → σ)

/-- The subscription object returned by `IndefiniteObservable.subscribe`:
the captured `closed` flag (initially `false`) and the captured disconnect
function. -/
structure DistSubscription (σ : Type) where
  closed : Bool
  disconnect : σ → σ

/-- `IndefiniteObservable.subscribe(observerOrNext)`: normalizes the
argument with `wrapWithObserver`, invokes the stored connect function
exactly once on the normalized observer, and returns the subscription
closure with `closed = false`. -/
def obsSubscribe {T σ : Type} (M : IndefiniteObservable T σ) (l : Listener T σ)
    (st : σ) : σ × DistSubscription σ :=
  let observer := wrapWithObserver l
  let res := M.connectFn observer st
  (res.1, ⟨false, res.2⟩)

/-- The `unsubscribe` closure of a dist subscription:
`if (!closed) { closed = true; disconnect(); }`. -/
def distUnsubscribe {σ : Type} (p : DistSubscription σ × σ) : DistSubscription σ × σ :=
  if p.1.closed then p else ({p.1 with closed := true}, p.1.disconnect p.2)

/-- Driver performing `n` successive calls to `subscribe` on the same
Observable with the same argument, threading the world state. -/
def subscribeN {T σ : Type} (M : IndefiniteObservable T σ) (l : Listener T σ) :
    Nat → σ → σ
  | 0, st => st
  | Nat.succ n, st => subscribeN M l n (obsSubscribe M l st).1

/-- The adapter inlined in the bundled copy (src/unnamed/part_000):
`if(!listener.next){listener={next:listener}}`.  On the two shapes of
`Listener` this checks absence of a `next` property: a bare function has
none and is wrapped; an object with a `next` method is kept unchanged. -/
def part000Wrap {T σ : Type} : Listener T σ → NObserver T σ
  | .fn f => ⟨f⟩
  | .obs o => o

/-- The subscription object returned by the bundled copy's `subscribe`:
`return {unsubscribe: unsubscribe}` where `unsubscribe` is the creator's
disconnect function itself — no `closed` flag guards re-entry. -/
structure Part000Subscription (σ : Type) where
  unsubscribe : σ → σ

/-- `IndefiniteObservable.prototype.subscribe` of the bundled copy:
normalizes with the inlined adapter, calls `this._creator(listener)` once,
and exposes the returned disconnect function directly as `unsubscribe`. -/
def part000Subscribe {T σ : Type} (creator : NObserver T σ → σ → σ × (σ → σ))
    (l : Listener T σ) (st : σ) : σ × Part000Subscription σ :=
  let listener := part000Wrap l
  let res := creator listener st
  (res.1, ⟨res.2⟩)

/-! Helper lemmas about the set model and the delivery pass. -/

lemma mem_setAdd_self (l : List ObsId) (o : ObsId) : o ∈ setAdd l o := by
  unfold setAdd
  by_cases h : o ∈ l
  · simp [h]
  · simp [h]

lemma setAdd_of_mem {l : List ObsId} {o : ObsId} (h : o ∈ l) : setAdd l o = l := by
  simp [setAdd, h]

lemma setAdd_of_not_mem {l : List ObsId} {o : ObsId} (h : o ∉ l) :
    setAdd l o = l ++ [o] := by
  simp [setAdd, h]

lemma mem_setAdd {l : List ObsId} {o x : ObsId} (h : x ∈ setAdd l o) :
    x ∈ l ∨ x = o := by
  unfold setAdd at h
  by_cases hm : o ∈ l
  · simp [hm] at h
    exact Or.inl h
  · simp [hm] at h
    exact h

lemma setAdd_nodup {l : List ObsId} {o : ObsId} (h : l.Nodup) :
    (setAdd l o).Nodup := by
  unfold setAdd
  by_cases hm : o ∈ l
  · simpa [hm]
  · rw [if_neg hm]
    simp only [List.nodup_append, List.nodup_cons, List.not_mem_nil, not_false_iff,
      List.nodup_nil, and_true, true_and]
    refine ⟨h, ?_⟩
    intro x hx
    simp only [List.mem_singleton]
    intro hcon
    exact hm (hcon ▸ hx)

lemma setAdd_idem (l : List ObsId) (o : ObsId) :
    setAdd (setAdd l o) o = setAdd l o :=
  setAdd_of_mem (mem_setAdd_self l o)

lemma callNext_recorder {T : Type} {env : ObsId → ObsBehavior T} {o : ObsId}
    (arg : Option T) (s : SubjectState T) (h : env o = .recorder) :
    callNext env o arg s = ({s with log := s.log ++ [(o, arg)]}, false) := by
  simp [callNext, h]

lemma callNext_thrower {T : Type} {env : ObsId → ObsBehavior T} {o : ObsId}
    (arg : Option T) (s : SubjectState T) (h : env o = .thrower) :
    callNext env o arg s = (s, true) := by
  simp [callNext, h]

lemma callNext_adder {T : Type} {env : ObsId → ObsBehavior T} {o b : ObsId}
    (arg : Option T) (s : SubjectState T) (h : env o = .adder b)
    (hs : s.hasStarted = true) :
    callNext env o arg s =
      ({s with observers := setAdd s.observers b, log := s.log ++ [(b, s.lastValue)]}, false) := by
  simp [callNext, h, hs]

lemma find?_eq_head?_filter (p : ObsId → Bool) (l : List ObsId) :
    l.find? p = (l.filter p).head? := by
  induction l with
  | nil => rfl
  | cons a l ih =>
    by_cases h : p a
    · rw [List.find?_cons_of_pos _ h, List.filter_cons_of_pos h]
      rfl
    · rw [List.find?_cons_of_neg _ h, List.filter_cons_of_neg (by simpa using h)]
      exact ih

lemma unvisited_pos {visited : List ObsId} {o : ObsId} (h : o ∉ visited) :
    unvisited visited o = true := by
  simp [unvisited, h]

lemma unvisited_neg {visited : List ObsId} {o : ObsId} (h : o ∈ visited) :
    ¬ unvisited visited o = true := by
  simp [unvisited, h]

lemma filter_unvisited_step {l visited : List ObsId} {o : ObsId} (hnd : l.Nodup)
    (h : l.find? (unvisited visited) = some o) :
    l.filter (unvisited visited) = o :: l.filter (unvisited (visited ++ [o])) := by
  induction l with
  | nil => simp at h
  | cons a l ih =>
    rcases List.nodup_cons.mp hnd with ⟨hal, hl⟩
    by_cases hv : a ∈ visited
    · have hpa : ¬ unvisited visited a = true := unvisited_neg hv
      have hpa2 : ¬ unvisited (visited ++ [o]) a = true :=
        unvisited_neg (List.mem_append_left _ hv)
      rw [List.find?_cons_of_neg _ hpa] at h
      rw [List.filter_cons_of_neg hpa, List.filter_cons_of_neg hpa2]
      exact ih hl h
    · have hpa : unvisited visited a = true := unvisited_pos hv
      rw [List.find?_cons_of_pos _ hpa] at h
      injection h with ho
      subst ho
      have hpa2 : ¬ unvisited (visited ++ [a]) a = true :=
        unvisited_neg (List.mem_append_right _ (by simp))
      rw [List.filter_cons_of_pos hpa, List.filter_cons_of_neg hpa2]
      congr 1
      apply List.filter_congr
      intro x hx
      have hxa : x ≠ a := fun hcon => hal (hcon ▸ hx)
      simp [unvisited, List.mem_append, hxa]

lemma filter_unvisited_nil (obs : List ObsId) : obs.filter (unvisited []) = obs := by
  apply List.filter_eq_self.mpr
  intro a _
  exact unvisited_pos (by simp)

lemma firstUnvisited_none {obs visited : List ObsId} (h : ∀ o ∈ obs, o ∈ visited) :
    firstUnvisited obs visited = none := by
  unfold firstUnvisited
  rw [List.find?_eq_none]
  intro x hx
  exact unvisited_neg (h x hx)

lemma runForEach_step_none {T : Type} {env : ObsId → ObsBehavior T} {v : T}
    {fuel : Nat} {visited : List ObsId} {s : SubjectState T}
    (hfu : firstUnvisited s.observers visited = none) :
    runForEach env v (fuel + 1) visited s = some (s, false) := by
  simp [runForEach, hfu]

lemma runForEach_step_throw {T : Type} {env : ObsId → ObsBehavior T} {v : T}
    {fuel : Nat} {visited : List ObsId} {s s1 : SubjectState T} {o : ObsId}
    (hfu : firstUnvisited s.observers visited = some o)
    (hcall : callNext env o (some v) s = (s1, true)) :
    runForEach env v (fuel + 1) visited s = some (s1, true) := by
  simp [runForEach, hfu, hcall]

lemma runForEach_step_ok {T : Type} {env : ObsId → ObsBehavior T} {v : T}
    {fuel : Nat} {visited : List ObsId} {s s1 : SubjectState T} {o : ObsId}
    (hfu : firstUnvisited s.observers visited = some o)
    (hcall : callNext env o (some v) s = (s1, false)) :
    runForEach env v (fuel + 1) visited s = runForEach env v fuel (visited ++ [o]) s1 := by
  simp [runForEach, hfu, hcall]

lemma runForEach_rec_seg {T : Type} (env : ObsId → ObsBehavior T) (v : T) :
    ∀ (us rest : List ObsId) (fuel : Nat) (visited : List ObsId) (s : SubjectState T),
    s.observers.Nodup →
    (∀ o ∈ us, env o = ObsBehavior.recorder) →
    s.observers.filter (unvisited visited) = us ++ rest →
    runForEach env v (us.length + fuel) visited s =
      runForEach env v fuel (visited ++ us)
        {s with log := s.log ++ us.map (fun o => (o, some v))} := by
  intro us
  induction us with
  | nil =>
    intro rest fuel visited s _ _ _
    simp
  | cons u us ih =>
    intro rest fuel visited s hnd hrec hfil
    have hfind : s.observers.find? (unvisited visited) = some u := by
      rw [find?_eq_head?_filter, hfil]
      rfl
    have hstep := filter_unvisited_step hnd hfind
    have htail : s.observers.filter (unvisited (visited ++ [u])) = us ++ rest := by
      have h12 := hstep.symm.trans hfil
      simpa using h12
    have hlen : (u :: us).length + fuel = (us.length + fuel) + 1 := by
      simp [Nat.succ_add]
    rw [hlen]
    rw [runForEach_step_ok hfind
      (callNext_recorder (some v) s (hrec u (List.mem_cons_self u us)))]
    have := ih rest fuel (visited ++ [u]) {s with log := s.log ++ [(u, some v)]}
      hnd (fun o ho => hrec o (List.mem_cons_of_mem u ho)) htail
    rw [this]
    simp [List.append_assoc]

lemma subjectNext_recorders {T : Type} (env : ObsId → ObsBehavior T) (v : T)
    (s : SubjectState T) (hnd : s.observers.Nodup)
    (hrec : ∀ o ∈ s.observers, env o = ObsBehavior.recorder) :
    subjectNext env (s.observers.length + 1) v s =
      some ({s with
        hasStarted := true, lastValue := some v,
        log := s.log ++ s.observers.map (fun o => (o, some v))}, false) := by
  unfold subjectNext
  rw [runForEach_rec_seg env v s.observers [] 1 []
    {s with hasStarted := true, lastValue := some v} hnd hrec
    (by simpa using filter_unvisited_nil s.observers)]
  exact runForEach_step_none (firstUnvisited_none (fun o ho => by simpa using ho))

lemma distUnsubscribe_closed {σ : Type} (p : DistSubscription σ × σ) (h : p.1.closed = true) :
    distUnsubscribe p = p := by
  simp [distUnsubscribe, h]

lemma distUnsubscribe_iter_closed {σ : Type} :
    ∀ (n : Nat) (p : DistSubscription σ × σ), p.1.closed = true → distUnsubscribe^[n] p = p
  | 0, _, _ => rfl
  | n + 1, p, h => by
    rw [Function.iterate_succ_apply, distUnsubscribe_closed p h]
    exact distUnsubscribe_iter_closed n p h

lemma distUnsubscribe_iter_fresh {σ : Type} (d : σ → σ) (st : σ) (n : Nat) (hn : 1 ≤ n) :
    distUnsubscribe^[n] (⟨false, d⟩, st) = (⟨true, d⟩, d st) := by
  obtain ⟨m, rfl⟩ : ∃ m, n = m + 1 := ⟨n - 1, by omega⟩
  rw [Function.iterate_succ_apply]
  have h1 : distUnsubscribe ((⟨false, d⟩ : DistSubscription σ), st) = (⟨true, d⟩, d st) := by
    simp [distUnsubscribe]
  rw [h1]
  exact distUnsubscribe_iter_closed m _ rfl

/-! Concrete instances used by the closed witnesses and counterexamples. -/

/-- A connect function over world `Nat` whose disconnect function increments
the world counter: the world counts disconnect invocations. -/
def natCounterConnect : NObserver Nat Nat → Nat → Nat × (Nat → Nat) :=
  fun _ st => (st, fun k => k + 1)

/-- A bare-function listener that ignores its argument. -/
def natIdListener : Listener Nat Nat :=
  Listener.fn (fun _ st => st)

/-- The counting connect function of the spec's testable property 1: each
invocation increments the world counter and disconnect does nothing. -/
def countingConnect (T : Type) : NObserver T Nat → Nat → Nat × (Nat → Nat) :=
  fun _ k => (k + 1, id)

/-- An environment in which every observer merely records. -/
def allRec : ObsId → ObsBehavior Nat :=
  fun _ => ObsBehavior.recorder

/-- An environment in which observer 0 re-entrantly subscribes the fresh
recorder 1, and every other observer records. -/
def envAdd : ObsId → ObsBehavior Nat :=
  fun i => if i = 0 then ObsBehavior.adder 1 else ObsBehavior.recorder

/-- An environment in which observer 1 re-entrantly subscribes the fresh
recorder 2, and every other observer records. -/
def envAdd2 : ObsId → ObsBehavior Nat :=
  fun i => if i = 1 then ObsBehavior.adder 2 else ObsBehavior.recorder

/-- An environment in which observer 1 throws and every other observer
records. -/
def envThrow : ObsId → ObsBehavior Nat :=
  fun i => if i = 1 then ObsBehavior.thrower else ObsBehavior.recorder

/-- An environment in which every observer throws. -/
def envAllThrow : ObsId → ObsBehavior Nat :=
  fun _ => ObsBehavior.thrower

/-! The claims. -/

/-- C2: for every Subscription returned by `IndefiniteObservable.subscribe`,
calling `unsubscribe` any number `n ≥ 1` of times invokes the underlying
disconnect function exactly once — the final world is the disconnect
function applied exactly once to the world left by `connect`, and every call
after the first is a no-op (the state is already the fixed point with
`closed = true`). -/
theorem unsubscribe_idempotent_disconnect {T σ : Type} (M : IndefiniteObservable T σ)
    (l : Listener T σ) (st : σ) (n : Nat) (hn : 1 ≤ n) :
    distUnsubscribe^[n] ((obsSubscribe M l st).2, (obsSubscribe M l st).1) =
      (⟨true, (M.connectFn (wrapWithObserver l) st).2⟩,
        (M.connectFn (wrapWithObserver l) st).2 ((M.connectFn (wrapWithObserver l) st).1)) :=
  distUnsubscribe_iter_fresh _ _ n hn

/-- Witness for C2 at a concrete input: two unsubscribe calls on a
subscription whose disconnect increments a counter leave the counter at 1. -/
theorem unsubscribe_idempotent_disconnect_witness :
    1 ≤ 2 ∧
    distUnsubscribe^[2] ((obsSubscribe ⟨natCounterConnect⟩ natIdListener 0).2,
        (obsSubscribe ⟨natCounterConnect⟩ natIdListener 0).1) =
      (⟨true, (natCounterConnect (wrapWithObserver natIdListener) 0).2⟩,
        (natCounterConnect (wrapWithObserver natIdListener) 0).2
          ((natCounterConnect (wrapWithObserver natIdListener) 0).1)) :=
  ⟨by omega, unsubscribe_idempotent_disconnect ⟨natCounterConnect⟩ natIdListener 0 2 (by omega)⟩

/-- C5: the connect function stored at construction is invoked exactly once
per `subscribe` call, each time with that subscription's normalized
observer: after `n` calls to `subscribe` the world equals the `n`-fold
iterate of one connect invocation on `wrapWithObserver l` (`n = 0`, i.e.
mere construction, leaves the world untouched); instantiated on the
counting connect function, `n` subscriptions count to exactly `n`. -/
theorem connect_invoked_once_per_subscribe :
    (∀ (T σ : Type) (M : IndefiniteObservable T σ) (l : Listener T σ) (n : Nat) (st : σ),
      subscribeN M l n st = (fun w => (M.connectFn (wrapWithObserver l) w).1)^[n] st) ∧
    (∀ (T : Type) (l : Listener T Nat) (n : Nat),
      subscribeN ⟨countingConnect T⟩ l n 0 = n) := by
  constructor
  · intro T σ M l n
    induction n with
    | zero => intro st; rfl
    | succ n ih =>
      intro st
      have h1 : subscribeN M l (n + 1) st = subscribeN M l n (obsSubscribe M l st).1 := rfl
      rw [h1, ih, Function.iterate_succ_apply]
      rfl
  · intro T l n
    have key : ∀ (m : Nat) (st : Nat), subscribeN ⟨countingConnect T⟩ l m st = st + m := by
      intro m
      induction m with
      | zero => intro st; rfl
      | succ m ih =>
        intro st
        have h1 : subscribeN (⟨countingConnect T⟩ : IndefiniteObservable T Nat) l (m + 1) st =
            subscribeN ⟨countingConnect T⟩ l m (st + 1) := rfl
        rw [h1, ih]
        omega
    simpa using key n 0

/-- C8: subscribing any observer to a fresh Subject (no prior `next` call)
invokes nothing on that observer: whatever the observer's behavior, the
subscribe call merely registers it — the log stays empty and no callback
effect (not even a throw) occurs. -/
theorem subject_fresh_subscribe_delivers_nothing {T : Type}
    (env : ObsId → ObsBehavior T) (o : ObsId) :
    subjectSubscribe env o (mkSubject : SubjectState T) = (⟨[o], false, none, []⟩, false) :=
  rfl

/-- C6: `IndefiniteSubject.subscribe` is not atomic with a throwing replay:
the observer is added to `_observers` before the cached value is replayed,
so when the replay throws the exception propagates (`true`) and the observer
is nevertheless left registered in the subscriber set. -/
theorem subject_subscribe_registers_before_replay {T : Type}
    (env : ObsId → ObsBehavior T) (o : ObsId) (s : SubjectState T)
    (ho : env o = ObsBehavior.thrower) (hs : s.hasStarted = true) :
    subjectSubscribe env o s = ({s with observers := setAdd s.observers o}, true) ∧
    o ∈ ({s with observers := setAdd s.observers o} : SubjectState T).observers := by
  constructor
  · simp only [subjectSubscribe, hs, if_true]
    exact callNext_thrower _ _ ho
  · exact mem_setAdd_self s.observers o

/-- Witness for C6 at a concrete input: subscribing the throwing observer 9
to a started subject propagates the exception and leaves 9 registered. -/
theorem subject_subscribe_registers_before_replay_witness :
    envAllThrow 9 = ObsBehavior.thrower ∧
    (⟨[5], true, some 2, []⟩ : SubjectState Nat).hasStarted = true ∧
    (subjectSubscribe envAllThrow 9 (⟨[5], true, some 2, []⟩ : SubjectState Nat) =
        ({(⟨[5], true, some 2, []⟩ : SubjectState Nat) with
          observers := setAdd [5] 9}, true) ∧
      9 ∈ ({(⟨[5], true, some 2, []⟩ : SubjectState Nat) with
          observers := setAdd [5] 9} : SubjectState Nat).observers) :=
  ⟨rfl, rfl, subject_subscribe_registers_before_replay
    envAllThrow 9 ⟨[5], true, some 2, []⟩ rfl rfl⟩

/-- C10 counterexample: the two shipped `subscribe` implementations are not
observationally equivalent under repeated `unsubscribe`.  With a disconnect
function that increments a counter, two unsubscribe calls leave the counter
at 1 for dist/indefinite-observable.js (closed flag) but at 2 for the
bundled copy in part_000 (no flag), and 1 ≠ 2. -/
theorem dist_part000_unsubscribe_differ :
    (distUnsubscribe (distUnsubscribe ((obsSubscribe ⟨natCounterConnect⟩ natIdListener 0).2,
        (obsSubscribe ⟨natCounterConnect⟩ natIdListener 0).1))).2 = 1 ∧
    (part000Subscribe natCounterConnect natIdListener 0).2.unsubscribe
        ((part000Subscribe natCounterConnect natIdListener 0).2.unsubscribe
          ((part000Subscribe natCounterConnect natIdListener 0).1)) = 2 ∧
    (1 : Nat) ≠ 2 :=
  ⟨rfl, rfl, by omega⟩

/-- C10 amended: for every argument expressible as a bare function or an
object with a `next` method the two implementations normalize identically
and hand the same observer to the connect/creator function, whose effect on
the world agrees; a single dist unsubscribe equals one disconnect
application, and dist stays at exactly one disconnect application for every
`n ≥ 1` unsubscribe calls — whereas part_000 exposes the raw disconnect
function as `unsubscribe`, so each of its calls invokes disconnect again. -/
theorem dist_part000_partial_equivalence {T σ : Type}
    (creator : NObserver T σ → σ → σ × (σ → σ)) (l : Listener T σ) (st : σ)
    (n : Nat) (hn : 1 ≤ n) :
    part000Wrap l = wrapWithObserver l ∧
    (part000Subscribe creator l st).1 = (obsSubscribe ⟨creator⟩ l st).1 ∧
    (part000Subscribe creator l st).2.unsubscribe = (creator (part000Wrap l) st).2 ∧
    (distUnsubscribe^[n] ((obsSubscribe ⟨creator⟩ l st).2,
        (obsSubscribe ⟨creator⟩ l st).1)).2 =
      (creator (wrapWithObserver l) st).2 ((creator (wrapWithObserver l) st).1) := by
  refine ⟨?_, rfl, rfl, ?_⟩
  · cases l <;> rfl
  · have h := distUnsubscribe_iter_fresh (creator (wrapWithObserver l) st).2
      (creator (wrapWithObserver l) st).1 n hn
    exact congrArg Prod.snd h

/-- Witness for C10's amended statement at a concrete input. -/
theorem dist_part000_partial_equivalence_witness :
    1 ≤ 2 ∧
    (part000Wrap natIdListener = wrapWithObserver natIdListener ∧
      (part000Subscribe natCounterConnect natIdListener 0).1 =
        (obsSubscribe ⟨natCounterConnect⟩ natIdListener 0).1 ∧
      (part000Subscribe natCounterConnect natIdListener 0).2.unsubscribe =
        (natCounterConnect (part000Wrap natIdListener) 0).2 ∧
      (distUnsubscribe^[2] ((obsSubscribe ⟨natCounterConnect⟩ natIdListener 0).2,
          (obsSubscribe ⟨natCounterConnect⟩ natIdListener 0).1)).2 =
        (natCounterConnect (wrapWithObserver natIdListener) 0).2
          ((natCounterConnect (wrapWithObserver natIdListener) 0).1)) :=
  ⟨by omega, dist_part000_partial_equivalence natCounterConnect natIdListener 0 2 (by omega)⟩

/-- C3 counterexample: delivery does not use a snapshot of the subscriber
set.  Starting from a subject whose only subscriber is observer 0, whose
callback re-entrantly subscribes the fresh recorder 1, `next 7` leaves a log
in which observer 1 — absent from the subscriber set at the start of the
call — receives 7 during the pass, twice: once replayed by the re-entrant
subscribe and once by the live `forEach` iteration. -/
theorem subject_next_snapshot_refuted :
    subjectNext envAdd 5 (7 : Nat) ⟨[0], false, none, []⟩ =
      some (⟨[0, 1], true, some 7, [(1, some 7), (1, some 7)]⟩, false) ∧
    (1 : ObsId) ∉ ([0] : List ObsId) := by
  constructor
  · rfl
  · simp

lemma count_map_pair_eq_one {T : Type} [DecidableEq T] {l : List ObsId} {o : ObsId}
    (hnd : l.Nodup) (ho : o ∈ l) (v : Option T) :
    (l.map (fun p => (p, v))).count (o, v) = 1 := by
  induction l with
  | nil => simp at ho
  | cons a l ih =>
    rcases List.nodup_cons.mp hnd with ⟨hal, hl⟩
    rcases List.mem_cons.mp ho with h | h
    · subst h
      have hz : (l.map (fun p => (p, v))).count (o, v) = 0 := by
        rw [List.count_eq_zero]
        intro hc
        rcases List.mem_map.mp hc with ⟨p, hp, hpq⟩
        have : p = o := congrArg Prod.fst hpq
        exact hal (this ▸ hp)
      simp [List.count_cons, hz]
    · have hoa : o ≠ a := fun hc => hal (hc ▸ h)
      simp [List.count_cons, ih hl h, hoa]

/-- C4: a `next v` call on a Subject whose currently-registered subscribers
are all plain recorders notifies every one of them synchronously before
returning — the log is extended by exactly one `(o, v)` entry per registered
observer, and (the set being duplicate-free) each observer is notified
exactly once, none skipped, none twice. -/
theorem subject_next_fanout_once {T : Type} [DecidableEq T] (env : ObsId → ObsBehavior T)
    (v : T) (s : SubjectState T) (hnd : s.observers.Nodup)
    (hrec : ∀ o ∈ s.observers, env o = ObsBehavior.recorder) :
    subjectNext env (s.observers.length + 1) v s =
      some ({s with
        hasStarted := true, lastValue := some v,
        log := s.log ++ s.observers.map (fun o => (o, some v))}, false) ∧
    ∀ o ∈ s.observers, (s.observers.map (fun p => (p, some v))).count (o, some v) = 1 := by
  refine ⟨subjectNext_recorders env v s hnd hrec, ?_⟩
  intro o ho
  exact count_map_pair_eq_one hnd ho (some v)

/-- Witness for C4 at a concrete input: two recorders 0 and 1 each receive 5
exactly once. -/
theorem subject_next_fanout_once_witness :
    ([0, 1] : List ObsId).Nodup ∧
    subjectNext allRec 3 (5 : Nat) ⟨[0, 1], false, none, []⟩ =
      some (⟨[0, 1], true, some 5, [(0, some 5), (1, some 5)]⟩, false) ∧
    ∀ o ∈ ([0, 1] : List ObsId),
      (([0, 1] : List ObsId).map (fun p => (p, some (5 : Nat)))).count (o, some 5) = 1 := by
  have h := subject_next_fanout_once allRec (5 : Nat) ⟨[0, 1], false, none, []⟩ (by decide)
    (fun o _ => rfl)
  exact ⟨by decide, h.1, h.2⟩

/-- C7: when an observer throws during multicast delivery, the exception
propagates synchronously out of `next` (flag `true`) and the pass is
aborted: the recorders before the thrower each received the value, the log
shows no delivery to any observer after the thrower, and the behaviors of
the remaining observers are never invoked. -/
theorem subject_next_throw_aborts {T : Type} (env : ObsId → ObsBehavior T) (v : T)
    (s : SubjectState T) (xs ys : List ObsId) (t : ObsId)
    (hobs : s.observers = xs ++ t :: ys) (hnd : s.observers.Nodup)
    (hxs : ∀ o ∈ xs, env o = ObsBehavior.recorder) (ht : env t = ObsBehavior.thrower) :
    subjectNext env (xs.length + 1) v s =
      some ({s with
        hasStarted := true, lastValue := some v,
        log := s.log ++ xs.map (fun o => (o, some v))}, true) := by
  unfold subjectNext
  have hfil : ({s with hasStarted := true, lastValue := some v} :
      SubjectState T).observers.filter (unvisited []) = xs ++ (t :: ys) := by
    show s.observers.filter (unvisited []) = xs ++ (t :: ys)
    rw [filter_unvisited_nil, hobs]
  rw [runForEach_rec_seg env v xs (t :: ys) 1 []
    {s with hasStarted := true, lastValue := some v} hnd hxs hfil]
  have hnd' : (xs ++ t :: ys).Nodup := hobs ▸ hnd
  have ht2 : t ∉ xs := by
    intro hc
    exact (List.nodup_append.mp hnd').2.2 hc (List.mem_cons_self t ys)
  have hfu : firstUnvisited ({{s with hasStarted := true, lastValue := some v} with
      log := ({s with hasStarted := true, lastValue := some v} : SubjectState T).log ++
        xs.map (fun o => (o, some v))} : SubjectState T).observers ([] ++ xs) = some t := by
    show firstUnvisited s.observers ([] ++ xs) = some t
    rw [hobs]
    unfold firstUnvisited
    rw [find?_eq_head?_filter, List.filter_append]
    have h1 : xs.filter (unvisited ([] ++ xs)) = [] := by
      rw [List.filter_eq_nil_iff]
      intro x hx
      exact unvisited_neg (by simpa using hx)
    rw [h1, List.filter_cons_of_pos (unvisited_pos (by simpa using ht2))]
    rfl
  exact runForEach_step_throw hfu (callNext_thrower _ _ ht)

/-- Witness for C7 at a concrete input: with recorders 0 and 2 around the
throwing observer 1, `next 9` delivers to 0, throws, and never reaches 2. -/
theorem subject_next_throw_aborts_witness :
    (⟨[0, 1, 2], false, none, []⟩ : SubjectState Nat).observers = [0] ++ 1 :: [2] ∧
    ([0, 1, 2] : List ObsId).Nodup ∧
    (∀ o ∈ ([0] : List ObsId), envThrow o = ObsBehavior.recorder) ∧
    envThrow 1 = ObsBehavior.thrower ∧
    subjectNext envThrow 2 (9 : Nat) ⟨[0, 1, 2], false, none, []⟩ =
      some (⟨[0, 1, 2], true, some 9, [(0, some 9)]⟩, true) := by
  have h := subject_next_throw_aborts envThrow (9 : Nat) ⟨[0, 1, 2], false, none, []⟩
    [0] [2] 1 rfl (by decide) (by decide) rfl
  exact ⟨rfl, by decide, by decide, rfl, h⟩

lemma emits_fresh {T : Type} (env : ObsId → ObsBehavior T) (vs : List T) :
    ∀ (lv : T) (hs : Bool) (lv0 : Option T), vs.getLast? = some lv →
    emits env vs (⟨[], hs, lv0, []⟩ : SubjectState T) =
      some (⟨[], true, some lv, []⟩, false) := by
  induction vs with
  | nil =>
    intro lv hs lv0 h
    simp at h
  | cons v vs ih =>
    intro lv hs lv0 h
    have h1 : emits env (v :: vs) (⟨[], hs, lv0, []⟩ : SubjectState T) =
        emits env vs (⟨[], true, some v, []⟩ : SubjectState T) := rfl
    rw [h1]
    cases vs with
    | nil =>
      simp at h
      subst h
      rfl
    | cons w ws =>
      rw [List.getLast?_cons_cons] at h
      exact ih lv true (some v) h

/-- C1: after any nonempty sequence of emissions on a fresh Subject (last
emitted value `lv`), the subject's state caches exactly `lv`; a recorder
that subscribes at that point synchronously receives exactly `lv` — its
whole delivery log is the single entry `(o, lv)`, so it never sees any
earlier value. -/
theorem subject_replays_exactly_last {T : Type} (env : ObsId → ObsBehavior T)
    (vs : List T) (lv : T) (o : ObsId) (hl : vs.getLast? = some lv)
    (ho : env o = ObsBehavior.recorder) :
    emits env vs (mkSubject : SubjectState T) = some (⟨[], true, some lv, []⟩, false) ∧
    subjectSubscribe env o (⟨[], true, some lv, []⟩ : SubjectState T) =
      (⟨[o], true, some lv, [(o, some lv)]⟩, false) ∧
    ∀ u, (o, u) ∈ ([(o, some lv)] : List (ObsId × Option T)) → u = some lv := by
  refine ⟨emits_fresh env vs lv false none hl, ?_, ?_⟩
  · have h1 : subjectSubscribe env o (⟨[], true, some lv, []⟩ : SubjectState T) =
        callNext env o (some lv) ⟨[o], true, some lv, []⟩ := rfl
    rw [h1, callNext_recorder (some lv) _ ho]
    rfl
  · intro u hu
    simp only [List.mem_singleton, Prod.mk.injEq] at hu
    exact hu.2

/-- Witness for C1 at a concrete input: after `next 1; next 2`, a fresh
recorder receives exactly 2. -/
theorem subject_replays_exactly_last_witness :
    ([1, 2] : List Nat).getLast? = some 2 ∧
    allRec 0 = ObsBehavior.recorder ∧
    (emits allRec [1, 2] (mkSubject : SubjectState Nat) =
        some (⟨[], true, some 2, []⟩, false) ∧
      subjectSubscribe allRec 0 (⟨[], true, some 2, []⟩ : SubjectState Nat) =
        (⟨[0], true, some 2, [(0, some 2)]⟩, false) ∧
      ∀ u, (0, u) ∈ ([(0, some 2)] : List (ObsId × Option Nat)) → u = some 2) :=
  ⟨rfl, rfl, subject_replays_exactly_last allRec [1, 2] 2 0 rfl rfl⟩

lemma runForEach_adder_tail {T : Type} (env : ObsId → ObsBehavior T) (v : T)
    (xs : List ObsId) (a b : ObsId) (lg : List (ObsId × Option T))
    (ha : env a = ObsBehavior.adder b) (hb : env b = ObsBehavior.recorder)
    (hax : a ∉ xs) (hbf : b ∉ xs ++ [a]) :
    runForEach env v 3 ([] ++ xs) (⟨xs ++ [a], true, some v, lg⟩ : SubjectState T) =
      some (⟨(xs ++ [a]) ++ [b], true, some v,
        (lg ++ [(b, some v)]) ++ [(b, some v)]⟩, false) := by
  have hfu1 : firstUnvisited (xs ++ [a]) ([] ++ xs) = some a := by
    unfold firstUnvisited
    rw [find?_eq_head?_filter, List.filter_append]
    have h1 : xs.filter (unvisited ([] ++ xs)) = [] := by
      rw [List.filter_eq_nil_iff]
      intro x hx
      exact unvisited_neg (by simpa using hx)
    rw [h1, List.filter_cons_of_pos (unvisited_pos (by simpa using hax))]
    rfl
  have hcall1 := callNext_adder (some v) (⟨xs ++ [a], true, some v, lg⟩ : SubjectState T) ha rfl
  rw [runForEach_step_ok hfu1 hcall1]
  have hS1 : ({(⟨xs ++ [a], true, some v, lg⟩ : SubjectState T) with
      observers := setAdd (xs ++ [a]) b,
      log := lg ++ [(b, some v)]}) =
      (⟨(xs ++ [a]) ++ [b], true, some v, lg ++ [(b, some v)]⟩ : SubjectState T) := by
    rw [setAdd_of_not_mem hbf]
  rw [hS1]
  have hfu2 : firstUnvisited ((xs ++ [a]) ++ [b]) (([] ++ xs) ++ [a]) = some b := by
    unfold firstUnvisited
    rw [find?_eq_head?_filter, List.filter_append]
    have h1 : (xs ++ [a]).filter (unvisited (([] ++ xs) ++ [a])) = [] := by
      rw [List.filter_eq_nil_iff]
      intro x hx
      exact unvisited_neg (by simpa using hx)
    have hb2 : b ∉ ([] ++ xs) ++ [a] := by simpa using hbf
    rw [h1, List.filter_cons_of_pos (unvisited_pos hb2)]
    rfl
  have hcall2 := callNext_recorder (some v)
    (⟨(xs ++ [a]) ++ [b], true, some v, lg ++ [(b, some v)]⟩ : SubjectState T) hb
  rw [runForEach_step_ok hfu2 hcall2]
  have hfu3 : firstUnvisited ((xs ++ [a]) ++ [b]) ((([] ++ xs) ++ [a]) ++ [b]) = none := by
    apply firstUnvisited_none
    intro o ho
    simp only [List.nil_append]
    exact ho
  rw [runForEach_step_none hfu3]

/-- C3 amended: `next` iterates the live `Set`, not a snapshot, so
re-entrant subscribes affect the in-flight pass.  With recorders `xs`
followed by observer `a` whose callback re-entrantly subscribes the fresh
recorder `b`, `next v` delivers `v` once to each member of `xs`, then `a`'s
callback adds `b` — which immediately receives `v` as subscribe's replay —
and the ongoing pass then visits `b` as well, delivering `v` to it a second
time, all before `next` returns.  (An observer removed re-entrantly before
its turn is likewise skipped, as the counterexample environment shows.) -/
theorem subject_next_live_iteration {T : Type} (env : ObsId → ObsBehavior T) (v : T)
    (s : SubjectState T) (xs : List ObsId) (a b : ObsId)
    (hobs : s.observers = xs ++ [a]) (hnd : s.observers.Nodup)
    (hxs : ∀ o ∈ xs, env o = ObsBehavior.recorder)
    (ha : env a = ObsBehavior.adder b) (hb : env b = ObsBehavior.recorder)
    (hbf : b ∉ xs ++ [a]) :
    subjectNext env (xs.length + 3) v s =
      some ({s with
        observers := (xs ++ [a]) ++ [b],
        hasStarted := true, lastValue := some v,
        log := s.log ++ xs.map (fun o => (o, some v)) ++ [(b, some v)] ++ [(b, some v)]},
        false) := by
  obtain ⟨obs, hs0, lv0, lg0⟩ := s
  have hobs' : obs = xs ++ [a] := hobs
  subst hobs'
  have hnd' : (xs ++ [a]).Nodup := hnd
  have hax : a ∉ xs := by
    intro hc
    exact (List.nodup_append.mp hnd').2.2 hc (List.mem_singleton.mpr rfl)
  unfold subjectNext
  have hfil : ({(⟨xs ++ [a], hs0, lv0, lg0⟩ : SubjectState T) with
      hasStarted := true, lastValue := some v} :
      SubjectState T).observers.filter (unvisited []) = xs ++ [a] := by
    show (xs ++ [a]).filter (unvisited []) = xs ++ [a]
    exact filter_unvisited_nil _
  rw [runForEach_rec_seg env v xs [a] 3 []
    {(⟨xs ++ [a], hs0, lv0, lg0⟩ : SubjectState T) with
      hasStarted := true, lastValue := some v} hnd' hxs hfil]
  show runForEach env v 3 ([] ++ xs)
      (⟨xs ++ [a], true, some v, lg0 ++ xs.map (fun o => (o, some v))⟩ : SubjectState T) = _
  rw [runForEach_adder_tail env v xs a b (lg0 ++ xs.map (fun o => (o, some v))) ha hb hax hbf]

/-- Witness for C3's amended statement at a concrete input: recorder 0,
then adder 1 subscribing fresh recorder 2. -/
theorem subject_next_live_iteration_witness :
    (⟨[0, 1], false, none, []⟩ : SubjectState Nat).observers = [0] ++ [1] ∧
    ([0, 1] : List ObsId).Nodup ∧
    (∀ o ∈ ([0] : List ObsId), envAdd2 o = ObsBehavior.recorder) ∧
    envAdd2 1 = ObsBehavior.adder 2 ∧
    envAdd2 2 = ObsBehavior.recorder ∧
    (2 : ObsId) ∉ ([0] : List ObsId) ++ [1] ∧
    subjectNext envAdd2 4 (7 : Nat) ⟨[0, 1], false, none, []⟩ =
      some (⟨([0] ++ [1]) ++ [2], true, some 7,
        [] ++ ([0] : List ObsId).map (fun o => (o, some (7 : Nat))) ++
          [(2, some 7)] ++ [(2, some 7)]⟩, false) := by
  have h := subject_next_live_iteration envAdd2 (7 : Nat) ⟨[0, 1], false, none, []⟩
    [0] 1 2 rfl (by decide) (by decide) rfl rfl (by decide)
  exact ⟨rfl, by decide, by decide, rfl, rfl, by decide, h⟩

lemma subjectSubscribe_recorder {T : Type} {env : ObsId → ObsBehavior T} {o : ObsId}
    (s : SubjectState T) (ho : env o = ObsBehavior.recorder) :
    subjectSubscribe env o s =
      ({s with
        observers := setAdd s.observers o,
        log := s.log ++ (if s.hasStarted = true then [(o, s.lastValue)] else [])}, false) := by
  unfold subjectSubscribe
  cases hst : s.hasStarted with
  | false => simp [hst]
  | true =>
    simp only [hst, if_true]
    rw [callNext_recorder _ _ ho]

/-- C9: the Subject's `Set` keeps no duplicates.  When the same (object-form)
observer `o` is subscribed twice with no intervening unsubscribe, the
subscriber set is the same as after one subscribe; a `next v` then delivers
`v` to `o` exactly once (not twice); and one `unsubscribe` — the closure of
either returned Subscription runs the same `delete` — removes `o` entirely,
so a later `next w` delivers nothing to `o`. -/
theorem subject_no_duplicate_subscribers {T : Type} [DecidableEq T]
    (env : ObsId → ObsBehavior T) (o : ObsId) (v w : T) (s s1 s2 : SubjectState T)
    (b1 b2 : Bool) (hnd : s.observers.Nodup) (ho : env o = ObsBehavior.recorder)
    (hrec : ∀ p ∈ s.observers, env p = ObsBehavior.recorder)
    (h1 : subjectSubscribe env o s = (s1, b1))
    (h2 : subjectSubscribe env o s1 = (s2, b2)) :
    s2.observers = setAdd s.observers o ∧
    subjectNext env (s2.observers.length + 1) v s2 =
      some ({s2 with
        hasStarted := true, lastValue := some v,
        log := s2.log ++ s2.observers.map (fun p => (p, some v))}, false) ∧
    (s2.observers.map (fun p => (p, some v))).count (o, some v) = 1 ∧
    o ∉ (subjectUnsubscribe o s2).observers ∧
    subjectNext env ((subjectUnsubscribe o s2).observers.length + 1) w
        (subjectUnsubscribe o s2) =
      some ({subjectUnsubscribe o s2 with
        hasStarted := true, lastValue := some w,
        log := (subjectUnsubscribe o s2).log ++
          (subjectUnsubscribe o s2).observers.map (fun p => (p, some w))}, false) ∧
    ∀ u, (o, u) ∉ (subjectUnsubscribe o s2).observers.map (fun p => (p, some w)) := by
  rw [subjectSubscribe_recorder s ho] at h1
  have e1 : s1 = {s with
      observers := setAdd s.observers o,
      log := s.log ++ (if s.hasStarted = true then [(o, s.lastValue)] else [])} :=
    (congrArg Prod.fst h1).symm
  have hobs1 : s1.observers = setAdd s.observers o := by rw [e1]
  rw [subjectSubscribe_recorder s1 ho] at h2
  have e2 : s2 = {s1 with
      observers := setAdd s1.observers o,
      log := s1.log ++ (if s1.hasStarted = true then [(o, s1.lastValue)] else [])} :=
    (congrArg Prod.fst h2).symm
  have hobs2 : s2.observers = setAdd s.observers o := by
    rw [e2]
    show setAdd s1.observers o = setAdd s.observers o
    rw [hobs1, setAdd_idem]
  have hnd2 : s2.observers.Nodup := by
    rw [hobs2]
    exact setAdd_nodup hnd
  have hrec2 : ∀ p ∈ s2.observers, env p = ObsBehavior.recorder := by
    intro p hp
    rw [hobs2] at hp
    rcases mem_setAdd hp with h | h
    · exact hrec p h
    · rw [h]
      exact ho
  have hnot : o ∉ (subjectUnsubscribe o s2).observers := by
    show o ∉ s2.observers.erase o
    exact List.Nodup.not_mem_erase hnd2
  have hnd3 : (subjectUnsubscribe o s2).observers.Nodup := by
    show (s2.observers.erase o).Nodup
    exact List.Nodup.erase o hnd2
  have hrec3 : ∀ p ∈ (subjectUnsubscribe o s2).observers, env p = ObsBehavior.recorder := by
    intro p hp
    exact hrec2 p (List.mem_of_mem_erase hp)
  refine ⟨hobs2, subjectNext_recorders env v s2 hnd2 hrec2, ?_, hnot,
    subjectNext_recorders env w (subjectUnsubscribe o s2) hnd3 hrec3, ?_⟩
  · rw [hobs2]
    exact count_map_pair_eq_one (setAdd_nodup hnd) (mem_setAdd_self _ _) (some v)
  · intro u hu
    rcases List.mem_map.mp hu with ⟨p, hp, hpq⟩
    have hpo : p = o := congrArg Prod.fst hpq
    exact hnot (hpo ▸ hp)

/-- Witness for C9 at a concrete input: observer 0 subscribed twice to a
fresh subject. -/
theorem subject_no_duplicate_subscribers_witness :
    (([] : List ObsId).Nodup ∧
      allRec 0 = ObsBehavior.recorder ∧
      subjectSubscribe allRec 0 (mkSubject : SubjectState Nat) =
        (⟨[0], false, none, []⟩, false) ∧
      subjectSubscribe allRec 0 (⟨[0], false, none, []⟩ : SubjectState Nat) =
        (⟨[0], false, none, []⟩, false)) ∧
    ((⟨[0], false, none, []⟩ : SubjectState Nat).observers = setAdd [] 0 ∧
      subjectNext allRec ((⟨[0], false, none, []⟩ : SubjectState Nat).observers.length + 1)
          (3 : Nat) ⟨[0], false, none, []⟩ =
        some ({(⟨[0], false, none, []⟩ : SubjectState Nat) with
          hasStarted := true, lastValue := some 3,
          log := (⟨[0], false, none, []⟩ : SubjectState Nat).log ++
            (⟨[0], false, none, []⟩ : SubjectState Nat).observers.map
              (fun p => (p, some 3))}, false) ∧
      ((⟨[0], false, none, []⟩ : SubjectState Nat).observers.map
        (fun p => (p, some (3 : Nat)))).count (0, some 3) = 1 ∧
      0 ∉ (subjectUnsubscribe 0 (⟨[0], false, none, []⟩ : SubjectState Nat)).observers ∧
      subjectNext allRec
          ((subjectUnsubscribe 0 (⟨[0], false, none, []⟩ : SubjectState Nat)).observers.length + 1)
          (4 : Nat) (subjectUnsubscribe 0 (⟨[0], false, none, []⟩ : SubjectState Nat)) =
        some ({subjectUnsubscribe 0 (⟨[0], false, none, []⟩ : SubjectState Nat) with
          hasStarted := true, lastValue := some 4,
          log := (subjectUnsubscribe 0 (⟨[0], false, none, []⟩ : SubjectState Nat)).log ++
            (subjectUnsubscribe 0 (⟨[0], false, none, []⟩ : SubjectState Nat)).observers.map
              (fun p => (p, some 4))}, false) ∧
      ∀ u, (0, u) ∉ (subjectUnsubscribe 0
        (⟨[0], false, none, []⟩ : SubjectState Nat)).observers.map (fun p => (p, some 4))) := by
  have h := subject_no_duplicate_subscribers allRec 0 (3 : Nat) (4 : Nat)
    mkSubject ⟨[0], false, none, []⟩ ⟨[0], false, none, []⟩ false false
    (by decide) rfl (fun p hp => rfl) rfl rfl
  exact ⟨⟨by decide, rfl, rfl, rfl⟩, h⟩

end IndefObs
